import Mathlib

/-!
Verification of the minepy protocol connection layer
(src/minepy/protocol/connection.py).

The Python code is shallowly embedded: byte strings become `List Nat`
(each entry a byte value in [0, 256)), Python unbounded integers become
`Int` (or `Nat` where the value is provably nonnegative), and code that
can raise an exception returns `Except String`.  Python bitwise
operations on nonnegative integers coincide with the `Nat` operations
`&&&`, `|||`, `<<<`, `>>>`; on arbitrary integers, `x >> k` is floor
division by `2 ^ k` and `x & (2 ^ k - 1)` is the nonnegative remainder
modulo `2 ^ k`, which are exactly the `Int` `/` and `%` of Lean.
-/

/-! ## Definitions -/

/-- Embeds `Connection._write_varint` (connection.py:1042-1053).
The loop writes `value & 0x7F`, shifts `value >>= 7`, and sets the
continuation bit `0x80` while the shifted value is nonzero.  The Python
loop terminates for every nonnegative input (see `writeVarintFuel` for
the model of the loop on arbitrary integers, and the lemma
`writeVarintFuel_eq_writeVarint` connecting the two), so on nonnegative
inputs the loop is total recursion on `Nat`. -/
def writeVarint (n : Nat) : List Nat :=
  let byte := n &&& 127
  let v := n >>> 7
  if v ≠ 0 then (byte ||| 128) :: writeVarint v else [byte]
termination_by n
decreasing_by
  simp only [Nat.shiftRight_eq_div_pow] at *
  omega

/-- Embeds the loop of `Connection._write_varint` (connection.py:1042-1053)
on an arbitrary Python integer, with an explicit iteration budget:
`none` means the loop has not finished within `fuel` iterations.  Python
`value & 0x7F` on an arbitrary integer is the nonnegative remainder
`value % 128` and `value >>= 7` is floor division by 128, which for a
positive divisor are the `Int` `%` and `/` of Lean. -/
def writeVarintFuel (fuel : Nat) (value : Int) : Option (List Nat) :=
  match fuel with
  | 0 => none
  | fuel + 1 =>
    let byte := (value % 128).toNat
    let v := value / 128
    if v ≠ 0 then (writeVarintFuel fuel v).map fun rest => (byte ||| 128) :: rest
    else some [byte]

/-- Embeds the loop body of `PacketReader.read_varint` (connection.py:92-103):
read a byte, or in the 7 low bits shifted by the running shift, stop when
the continuation bit is clear, and raise `VarInt too big` when the shift
reaches 32.  `acc` and `shift` are the Python locals `result` and `shift`;
reading past the end of the buffer is the Python `IndexError`. -/
def readVarintAux (data : List Nat) (off acc shift : Nat) : Except String (Nat × Nat) :=
  match data[off]? with
  | none => .error "index out of range"
  | some byte =>
    let acc' := acc ||| (byte &&& 127) <<< shift
    if byte &&& 128 = 0 then .ok (acc', off + 1)
    else if 32 ≤ shift + 7 then .error "VarInt too big"
    else readVarintAux data (off + 1) acc' (shift + 7)
termination_by 32 - shift
decreasing_by omega

/-- Embeds `PacketReader.read_varint` (connection.py:92-103), returning the
decoded value and the new cursor offset. -/
def readVarint (data : List Nat) (off : Nat) : Except String (Nat × Nat) :=
  readVarintAux data off 0 0

/-- Big-endian byte string of a nonnegative value, `width` bytes long: the
output of `struct.pack` for an unsigned big-endian format. -/
def natToBytesBE (width v : Nat) : List Nat :=
  match width with
  | 0 => []
  | w + 1 => natToBytesBE w (v / 256) ++ [v % 256]

/-- Value of a big-endian byte string, as read by `struct.unpack_from`. -/
def bytesToNatBE (l : List Nat) : Nat :=
  l.foldl (fun acc b => acc * 256 + b) 0

/-- Embeds `struct.pack(">Q", v)`: 8 big-endian bytes of an unsigned 64-bit
value; `struct.error` when `v` is negative or does not fit in 64 bits. -/
def packQ (v : Int) : Except String (List Nat) :=
  if 0 ≤ v ∧ v < 2 ^ 64 then .ok (natToBytesBE 8 v.toNat)
  else .error "argument out of range"

/-- Embeds `PacketReader.read_long` (connection.py:74-77):
`struct.unpack_from(">q", ...)` reads 8 big-endian bytes and reinterprets
them as a signed two's-complement 64-bit value; fewer than 8 available
bytes raise `struct.error`. -/
def readLong (data : List Nat) (off : Nat) : Except String (Int × Nat) :=
  if off + 8 ≤ data.length then
    let u := bytesToNatBE ((data.drop off).take 8)
    .ok (if 2 ^ 63 ≤ u then (u : Int) - 2 ^ 64 else (u : Int), off + 8)
  else .error "unpack_from requires a buffer of at least 8 bytes"

/-- Embeds `Connection._write_position` (connection.py:1077-1081):
`val = ((x & 0x3FFFFFF) << 38) | ((y & 0xFFF) << 26) | (z & 0x3FFFFFF)`
packed with `struct.pack(">Q", val)`.  On an arbitrary integer the Python
mask `& 0x3FFFFFF` is the nonnegative remainder modulo `2 ^ 26`, and
`& 0xFFF` the remainder modulo `2 ^ 12`. -/
def writePosition (x y z : Int) : Except String (List Nat) :=
  let val := ((x % 2 ^ 26).toNat <<< 38) ||| ((y % 2 ^ 12).toNat <<< 26) |||
    (z % 2 ^ 26).toNat
  packQ (val : Int)

/-- Embeds `PacketReader.read_position` (connection.py:135-147).  The long
is read signed; then `x = val >> 38`, `y = (val >> 26) & 0xFFF` and
`z = val << 38 >> 38` — on unbounded Python integers the two shifts in
`z` cancel exactly (there is no 64-bit truncation between them) — followed
by the three sign-extension conditionals of the source. -/
def readPosition (data : List Nat) (off : Nat) :
    Except String ((Int × Int × Int) × Nat) :=
  match readLong data off with
  | .error e => .error e
  | .ok (val, off') =>
    let x := val / 2 ^ 38
    let y := (val / 2 ^ 26) % 2 ^ 12
    let z := val * 2 ^ 38 / 2 ^ 38
    let x := if 2 ^ 25 ≤ x then x - 2 ^ 26 else x
    let y := if 2 ^ 11 ≤ y then y - 2 ^ 12 else y
    let z := if 2 ^ 25 ≤ z then z - 2 ^ 26 else z
    .ok ((x, y, z), off')

/-- The `packets_765` dict of `Connection._get_packet_id`
(connection.py:942-971): packet IDs for protocol 765 (1.20.4), the
default table. -/
def packets765 : List (String × Nat) := [
  ("keep_alive_clientbound", 0x24),
  ("keep_alive_serverbound", 0x14),
  ("join_game", 0x26),
  ("player_position", 0x36),
  ("chat_message", 0x39),
  ("health_update", 0x52),
  ("entity_spawn", 0x01),
  ("entity_destroy", 0x3D),
  ("entity_move", 0x29),
  ("chunk_data", 0x24),
  ("block_change", 0x09),
  ("window_open", 0x2F),
  ("window_close", 0x61),
  ("window_items", 0x12),
  ("set_slot", 0x13),
  ("position_serverbound", 0x14),
  ("position_look_serverbound", 0x15),
  ("look_serverbound", 0x16),
  ("player_digging", 0x1C),
  ("block_placement", 0x2E),
  ("use_item", 0x2F),
  ("click_window", 0x0D),
  ("close_window_serverbound", 0x0D),
  ("held_item_change", 0x1F),
  ("entity_action", 0x1C),
  ("interact_entity", 0x0E),
  ("swing_arm", 0x30),
  ("teleport_confirm", 0x00)]

/-- The `packets_767` dict of `Connection._get_packet_id`
(connection.py:974-1003): packet IDs for protocol 767 and later (1.21+). -/
def packets767 : List (String × Nat) := [
  ("keep_alive_clientbound", 0x26),
  ("keep_alive_serverbound", 0x15),
  ("join_game", 0x2B),
  ("player_position", 0x3B),
  ("chat_message", 0x3C),
  ("health_update", 0x5B),
  ("entity_spawn", 0x01),
  ("entity_destroy", 0x3F),
  ("entity_move", 0x2B),
  ("chunk_data", 0x27),
  ("block_change", 0x0A),
  ("window_open", 0x31),
  ("window_close", 0x68),
  ("window_items", 0x13),
  ("set_slot", 0x14),
  ("position_serverbound", 0x15),
  ("position_look_serverbound", 0x16),
  ("look_serverbound", 0x17),
  ("player_digging", 0x1E),
  ("block_placement", 0x30),
  ("use_item", 0x31),
  ("click_window", 0x0F),
  ("close_window_serverbound", 0x0F),
  ("held_item_change", 0x20),
  ("entity_action", 0x1E),
  ("interact_entity", 0x10),
  ("swing_arm", 0x32),
  ("teleport_confirm", 0x00)]

/-- Embeds `Connection._get_packet_id` (connection.py:939-1008): for
protocol 767 and later, look the name up in the 767 table and fall back to
the 765 table; otherwise use the 765 table; a missing name yields the
sentinel 0 (the Python `dict.get` default). -/
def getPacketId (name : String) (protocolVersion : Int) : Nat :=
  if 767 ≤ protocolVersion then
    (packets767.lookup name).getD ((packets765.lookup name).getD 0)
  else (packets765.lookup name).getD 0

/-- The epoch-keyed tables of the registry, newest first. -/
def packetIdTables : List (Int × List (String × Nat)) :=
  [(767, packets767), (765, packets765)]

/-- Modelled from the claim text of C2: scan the known tables from the
highest table epoch that is ≤ the given epoch downward and return the
first entry found for the name. -/
def resolveScan (name : String) (pv : Int) : Option Nat :=
  (packetIdTables.filter fun t => t.1 ≤ pv).findSome? fun t => t.2.lookup name

/-- Resolution exactly as claim C2 states it: the sentinel 0 is returned
when no table with epoch ≤ the given epoch contains the name. -/
def resolveClaimed (name : String) (pv : Int) : Nat :=
  (resolveScan name pv).getD 0

/-- Resolution as amended: when no table with epoch ≤ the given epoch
contains the name, fall back to the lowest (765) table before returning
the sentinel 0. -/
def resolveAmended (name : String) (pv : Int) : Nat :=
  match resolveScan name pv with
  | some v => v
  | none => (packets765.lookup name).getD 0

/-- Embeds `Connection._send_packet` (connection.py:732-748): prepend the
packet id as a varint; when the compression threshold is nonnegative,
either deflate (the zlib deflate itself is the opaque parameter
`compress`) and prepend the pre-compression length, or prepend a zero
varint below the threshold; finally prepend the total length.  The result
is the byte string written to the socket; no branch raises. -/
def sendPacket (compress : List Nat → List Nat) (threshold : Int)
    (packetId : Nat) (data : List Nat) : List Nat :=
  let packetData := writeVarint packetId ++ data
  let packetData :=
    if 0 ≤ threshold then
      if threshold ≤ (packetData.length : Int) then
        writeVarint packetData.length ++ compress packetData
      else writeVarint 0 ++ packetData
    else packetData
  writeVarint packetData.length ++ packetData

/-- Embeds `Connection._handle_keep_alive` (connection.py:482-492): read
the 8-byte identifier with `read_long` (signed), remember it, and reply on
the serverbound keep-alive ID with `struct.pack(">Q", keep_alive_id)` as
the payload.  Returns the identifier and the socket bytes of the reply
frame produced by `_send_packet`. -/
def handleKeepAlive (pv : Int) (compress : List Nat → List Nat) (threshold : Int)
    (data : List Nat) : Except String (Int × List Nat) :=
  match readLong data 0 with
  | .error e => .error e
  | .ok (keepAliveId, _) =>
    match packQ keepAliveId with
    | .error e => .error e
    | .ok payload =>
      .ok (keepAliveId,
        sendPacket compress threshold (getPacketId "keep_alive_serverbound" pv) payload)

/-- Connection states, the `ConnectionState` constants (connection.py:23-30). -/
inductive CState where
  | handshaking
  | status
  | login
  | play
  | closed
deriving DecidableEq, Repr

/-- The bot events emitted by the connection layer handlers that the
embedded code paths can reach. -/
inductive Event where
  | connectEv
  | loginEv
  | spawnEv
  | moveEv
  | chatEv
  | healthEv
  | deathEv
  | endEv
  | errorEv
deriving DecidableEq, Repr

/-- The connection-level mutable state the embedded handlers touch:
`Connection._state` and `Connection._compression_threshold`. -/
structure Conn where
  state : CState
  compressionThreshold : Int
deriving DecidableEq, Repr

/-- The defaults of `Connection.__init__` (connection.py:183-184): state
`handshaking`, compression threshold -1 (disabled). -/
def connInit : Conn :=
  { state := CState.handshaking, compressionThreshold := -1 }

/-- Embeds the strict `bytes.decode("utf-8")` used by
`PacketReader.read_string`: returns the decoded code points, or `none`
exactly on byte strings Python rejects (stray or missing continuation
bytes, overlong forms, surrogates, lead bytes beyond 0xF4). -/
def utf8Decode : List Nat → Option (List Nat)
  | [] => some []
  | b :: rest =>
    if b < 128 then
      (utf8Decode rest).map fun cps => b :: cps
    else if b < 194 then none
    else if b < 224 then
      match rest with
      | c1 :: r =>
        if 128 ≤ c1 ∧ c1 < 192 then
          (utf8Decode r).map fun cps => ((b - 192) * 64 + (c1 - 128)) :: cps
        else none
      | [] => none
    else if b < 240 then
      match rest with
      | c1 :: c2 :: r =>
        if (128 ≤ c1 ∧ c1 < 192) ∧ (128 ≤ c2 ∧ c2 < 192) ∧
            (b = 224 → 160 ≤ c1) ∧ (b = 237 → c1 < 160) then
          (utf8Decode r).map fun cps =>
            ((b - 224) * 4096 + (c1 - 128) * 64 + (c2 - 128)) :: cps
        else none
      | _ => none
    else if b < 245 then
      match rest with
      | c1 :: c2 :: c3 :: r =>
        if (128 ≤ c1 ∧ c1 < 192) ∧ (128 ≤ c2 ∧ c2 < 192) ∧ (128 ≤ c3 ∧ c3 < 192) ∧
            (b = 240 → 144 ≤ c1) ∧ (b = 244 → c1 < 144) then
          (utf8Decode r).map fun cps =>
            ((b - 240) * 262144 + (c1 - 128) * 4096 + (c2 - 128) * 64 + (c3 - 128)) :: cps
        else none
      | _ => none
    else none

/-- Embeds `PacketReader.read_string` (connection.py:118-126): read a
varint byte length, reject `length > max_length * 4`, slice the bytes (a
short slice is allowed, as in Python), decode UTF-8 strictly, advance the
cursor by `length`, and reject when the decoded character count exceeds
`max_length`.  Returns the code points and the new offset. -/
def readString (data : List Nat) (off : Nat) (maxLength : Nat) :
    Except String (List Nat × Nat) :=
  match readVarint data off with
  | .error e => .error e
  | .ok (length, off1) =>
    if maxLength * 4 < length then .error "String too long"
    else
      match utf8Decode ((data.drop off1).take length) with
      | none => .error "UnicodeDecodeError"
      | some chars =>
        if maxLength < chars.length then .error "String too long"
        else .ok (chars, off1 + length)

/-- Embeds `Connection._handle_login_packet` (connection.py:410-432),
with `Connection.disconnect` inlined in the Disconnect branch.  Each
branch returns the updated connection and the events the bot emits; a
Python exception while parsing becomes `.error` (the receive loop then
emits an error event and disconnects).  Packet 0x00 reads the reason
string and disconnects (state Closed, `end` event); 0x01, Encryption
Request, only logs a warning; 0x02, Login Success, reads the UUID (a
16-byte slice that always succeeds and leaves the cursor at offset 16)
and the username, then sets the state to Play and emits `login`; 0x03,
Set Compression, stores the varint threshold. -/
def handleLoginPacket (packetId : Nat) (data : List Nat) (st : Conn) :
    Except String (Conn × List Event) :=
  if packetId = 0 then
    match readString data 0 32767 with
    | .error e => .error e
    | .ok _ => .ok ({ st with state := CState.closed }, [Event.endEv])
  else if packetId = 1 then .ok (st, [])
  else if packetId = 2 then
    match readString data 16 32767 with
    | .error e => .error e
    | .ok _ => .ok ({ st with state := CState.play }, [Event.loginEv])
  else if packetId = 3 then
    match readVarint data 0 with
    | .error e => .error e
    | .ok (threshold, _) =>
      .ok ({ st with compressionThreshold := (threshold : Int) }, [])
  else .ok (st, [])

/-- Embeds `Connection._handle_packet` (connection.py:399-406): route by
connection state — the Login handler when the state is Login, the Play
dispatcher when it is Play, nothing otherwise.  The Play dispatcher is a
parameter: claim C3 is precisely that it is not consulted in Login state,
so the claim theorem quantifies over it. -/
def handlePacket
    (playHandler : Nat → List Nat → Conn → Except String (Conn × List Event))
    (packetId : Nat) (data : List Nat) (st : Conn) :
    Except String (Conn × List Event) :=
  if st.state = CState.login then handleLoginPacket packetId data st
  else if st.state = CState.play then playHandler packetId data st
  else .ok (st, [])

/-- The bot health fields touched by `_handle_health_update` (their
defaults in bot.py:73-75 are health 20.0, food 20, saturation 5.0).  The
float values carried by the packet are modelled as rationals: the handler
only stores and order-compares them. -/
structure BotHealth where
  health : Rat
  food : Nat
  foodSaturation : Rat
deriving DecidableEq, Repr

/-- Embeds `Connection._handle_health_update` (connection.py:579-595) as a
function of the parsed packet fields (`read_float` health, varint food,
`read_float` saturation): store all three on the bot, then emit `death`
when the new health is ≤ 0 and the previous was > 0, else emit `health`
exactly when the value changed. -/
def handleHealthUpdate (health : Rat) (food : Nat) (saturation : Rat)
    (bot : BotHealth) : BotHealth × List Event :=
  let oldHealth := bot.health
  let bot' : BotHealth :=
    { health := health, food := food, foodSaturation := saturation }
  let evs :=
    if health ≤ 0 ∧ 0 < oldHealth then [Event.deathEv]
    else if health ≠ oldHealth then [Event.healthEv]
    else []
  (bot', evs)

/-! ## Lemmas and claim theorems -/

lemma writeVarint_eq_cons (n : Nat) (h : n >>> 7 ≠ 0) :
    writeVarint n = ((n &&& 127) ||| 128) :: writeVarint (n >>> 7) := by
  rw [writeVarint]
  simp [h]

lemma writeVarint_eq_single (n : Nat) (h : n >>> 7 = 0) :
    writeVarint n = [n &&& 127] := by
  rw [writeVarint]
  simp [h]

lemma readVarintAux_last {data : List Nat} {off acc shift byte : Nat}
    (h : data[off]? = some byte) (hb : byte &&& 128 = 0) :
    readVarintAux data off acc shift = .ok (acc ||| (byte &&& 127) <<< shift, off + 1) := by
  rw [readVarintAux, h]
  simp [hb]

lemma readVarintAux_cont {data : List Nat} {off acc shift byte : Nat}
    (h : data[off]? = some byte) (hb : byte &&& 128 ≠ 0) (hs : ¬ 32 ≤ shift + 7) :
    readVarintAux data off acc shift =
      readVarintAux data (off + 1) (acc ||| (byte &&& 127) <<< shift) (shift + 7) := by
  rw [readVarintAux, h]
  simp [hb, hs]

lemma and_127_eq_mod (n : Nat) : n &&& 127 = n % 128 := by
  have h := Nat.and_pow_two_sub_one_eq_mod n 7
  norm_num at h
  exact h

lemma and_128_eq_zero : ∀ b < 128, b &&& 128 = 0 := by decide

lemma lor_128_and_127 : ∀ b < 128, (b ||| 128) &&& 127 = b := by decide

lemma lor_128_and_128 : ∀ b < 128, (b ||| 128) &&& 128 = 128 := by decide

/-- Oring a value below `2 ^ s` with a value shifted left by `s` is addition:
the bit ranges are disjoint. -/
lemma lor_shiftLeft_eq_add (a n s : Nat) (h : a < 2 ^ s) :
    a ||| n <<< s = 2 ^ s * n + a := by
  apply Nat.eq_of_testBit_eq
  intro i
  rw [Nat.testBit_lor, Nat.testBit_shiftLeft, Nat.testBit_mul_pow_two_add n h i]
  by_cases hi : i < s
  · simp [hi, Nat.not_le.mpr hi]
  · have hs : s ≤ i := Nat.not_lt.mp hi
    have ha : a.testBit i = false :=
      Nat.testBit_lt_two_pow (lt_of_lt_of_le h (Nat.pow_le_pow_right (by norm_num) hs))
    simp [hi, hs, ha]

/-- Decoding an encoded varint that sits at the cursor of a larger buffer
recovers the encoded value, folded into the accumulator at the current
shift. -/
lemma readVarintAux_writeVarint (n : Nat) :
    ∀ (data rest : List Nat) (off acc shift : Nat),
      data.drop off = writeVarint n ++ rest →
      acc < 2 ^ shift → n < 2 ^ (32 - shift) →
      readVarintAux data off acc shift =
        .ok (acc + 2 ^ shift * n, off + (writeVarint n).length) := by
  induction n using Nat.strong_induction_on with
  | _ n ih =>
    intro data rest off acc shift hdrop hacc hn
    have hshift : n >>> 7 = n / 128 := by
      simp [Nat.shiftRight_eq_div_pow]
    by_cases h0 : n >>> 7 = 0
    · -- final byte: n < 128
      have hn128 : n < 128 := by
        rw [hshift] at h0
        omega
      rw [writeVarint_eq_single n h0] at hdrop ⊢
      have hget : data[off]? = some (n &&& 127) := by
        have h2 := List.getElem?_drop data off 0
        rw [hdrop] at h2
        simpa using h2.symm
      have hbyte : n &&& 127 = n := by
        rw [and_127_eq_mod]
        omega
      rw [hbyte] at hget
      rw [readVarintAux_last hget (and_128_eq_zero _ hn128), hbyte]
      rw [lor_shiftLeft_eq_add _ _ _ hacc]
      simp [Nat.add_comm]
    · -- continuation case: n ≥ 128
      have hn128 : 128 ≤ n := by
        rw [hshift] at h0
        omega
      rw [writeVarint_eq_cons n h0] at hdrop ⊢
      have hget : data[off]? = some ((n &&& 127) ||| 128) := by
        have h2 := List.getElem?_drop data off 0
        rw [hdrop] at h2
        simpa using h2.symm
      have hb : n &&& 127 < 128 := by
        rw [and_127_eq_mod]
        omega
      have hguard : ¬ 32 ≤ shift + 7 := by
        have h2 : (2 : Nat) ^ 7 < 2 ^ (32 - shift) := lt_of_le_of_lt (by omega) hn
        have h3 := (Nat.pow_lt_pow_iff_right (a := 2) (by norm_num)).mp h2
        omega
      rw [readVarintAux_cont hget (by rw [lor_128_and_128 _ hb]; norm_num) hguard]
      rw [lor_128_and_127 _ hb]
      have hrec := ih (n >>> 7) (by rw [hshift]; omega) data rest (off + 1)
        (acc ||| (n &&& 127) <<< shift) (shift + 7) ?_ ?_ ?_
      · rw [hrec]
        have hpow : (2 : Nat) ^ (shift + 7) = 2 ^ shift * 128 := by
          rw [pow_add]
          norm_num
        congr 1
        rw [Prod.mk.injEq]
        constructor
        · rw [lor_shiftLeft_eq_add _ _ _ hacc, and_127_eq_mod, hshift, hpow]
          have hmd := Nat.mod_add_div n 128
          nlinarith [hmd]
        · simp only [List.length_cons]
          omega
      · -- the tail of the buffer holds the encoding of the shifted value
        have h2 : data.drop (off + 1) = (data.drop off).drop 1 := by
          rw [List.drop_drop]
        rw [h2, hdrop]
        simp
      · -- the new accumulator is below the new shift bound
        rw [lor_shiftLeft_eq_add _ _ _ hacc, and_127_eq_mod]
        have hpow : (2 : Nat) ^ (shift + 7) = 2 ^ shift * 128 := by
          rw [pow_add]
          norm_num
        have hm : n % 128 < 128 := by omega
        nlinarith [hacc, hm]
      · -- the shifted value fits in the remaining bits
        rw [hshift]
        have hsub : 32 - shift = (32 - (shift + 7)) + 7 := by omega
        rw [hsub, pow_add] at hn
        exact (Nat.div_lt_iff_lt_mul (k := 128) (by norm_num)).mpr
          (by norm_num at hn ⊢; omega)

/-- The encoding of a value below `2 ^ (7 * (k + 1))` takes at most
`k + 1` bytes. -/
lemma writeVarint_length_le : ∀ (k n : Nat), n < 2 ^ (7 * (k + 1)) →
    (writeVarint n).length ≤ k + 1 := by
  intro k
  induction k with
  | zero =>
    intro n hn
    have h0 : n >>> 7 = 0 := by
      simp only [Nat.shiftRight_eq_div_pow]
      norm_num at hn ⊢
      omega
    rw [writeVarint_eq_single n h0]
    simp
  | succ k ihk =>
    intro n hn
    by_cases h0 : n >>> 7 = 0
    · rw [writeVarint_eq_single n h0]
      simp only [List.length_singleton]
      omega
    · rw [writeVarint_eq_cons n h0]
      have hlen : (writeVarint (n >>> 7)).length ≤ k + 1 := by
        apply ihk
        simp only [Nat.shiftRight_eq_div_pow]
        have h2 : (2 : Nat) ^ (7 * (k + 1 + 1)) = 2 ^ (7 * (k + 1)) * 2 ^ 7 := by
          rw [← pow_add]
          ring_nf
        rw [h2] at hn
        exact (Nat.div_lt_iff_lt_mul (by norm_num)).mpr (by norm_num at hn ⊢; omega)
      simp only [List.length_cons]
      omega

/-- On a nonnegative input that fits the iteration budget, the fueled loop
model agrees with the total encoder: the two definitions embed the same
Python function. -/
lemma writeVarintFuel_eq_writeVarint :
    ∀ (fuel n : Nat), n < 128 ^ (fuel + 1) →
      writeVarintFuel (fuel + 1) (n : Int) = some (writeVarint n) := by
  intro fuel
  induction fuel with
  | zero =>
    intro n hn
    have hn128 : n < 128 := by norm_num at hn; omega
    have h0 : ((n : Int) / 128 ≠ 0) = False := by simp; omega
    rw [writeVarintFuel]
    simp only [h0, if_false, ite_false]
    have hb : ((n : Int) % 128).toNat = n &&& 127 := by
      rw [and_127_eq_mod]
      omega
    rw [hb, writeVarint_eq_single n (by simp only [Nat.shiftRight_eq_div_pow]; omega)]
  | succ fuel ihf =>
    intro n hn
    by_cases h0 : (n : Int) / 128 = 0
    · have hn128 : n < 128 := by omega
      rw [writeVarintFuel]
      simp only [h0, ne_eq, not_true_eq_false, if_neg, ite_false]
      have hb : ((n : Int) % 128).toNat = n &&& 127 := by
        rw [and_127_eq_mod]
        omega
      rw [hb, writeVarint_eq_single n (by simp only [Nat.shiftRight_eq_div_pow]; omega)]
    · have hn128 : 128 ≤ n := by omega
      rw [writeVarintFuel]
      simp only [h0, ne_eq, not_false_eq_true, if_true, ite_true]
      have hv : (n : Int) / 128 = ((n / 128 : Nat) : Int) := by omega
      have hrec := ihf (n / 128) (by
        have : (128 : Nat) ^ (fuel + 1 + 1) = 128 ^ (fuel + 1) * 128 := by ring
        rw [this] at hn
        exact (Nat.div_lt_iff_lt_mul (by norm_num)).mpr hn)
      rw [hv, hrec]
      have hb : ((n : Int) % 128).toNat = n &&& 127 := by
        rw [and_127_eq_mod]
        omega
      rw [writeVarint_eq_cons n (by simp only [Nat.shiftRight_eq_div_pow]; omega)]
      have hsr : n >>> 7 = n / 128 := by
        simp [Nat.shiftRight_eq_div_pow]
      rw [hsr, hb]
      simp

/-- On a negative input the loop never finishes: floor division by 128
keeps a negative value negative, so the stop condition is never reached. -/
lemma writeVarintFuel_neg : ∀ (fuel : Nat) (v : Int), v < 0 →
    writeVarintFuel fuel v = none := by
  intro fuel
  induction fuel with
  | zero =>
    intro v hv
    rfl
  | succ fuel ihf =>
    intro v hv
    have hneg : v / 128 < 0 := Int.ediv_neg' hv (by norm_num)
    rw [writeVarintFuel]
    simp only [show (v / 128 ≠ 0) = True by simp; omega, if_true, ite_true]
    rw [ihf (v / 128) hneg]
    rfl

/-- The encoder always produces at least one byte. -/
lemma writeVarint_length_pos (n : Nat) : 1 ≤ (writeVarint n).length := by
  by_cases h0 : n >>> 7 = 0
  · rw [writeVarint_eq_single n h0]
    simp
  · rw [writeVarint_eq_cons n h0]
    simp

/-- Claim C9: the `_write_varint` loop terminates exactly on nonnegative
inputs.  For every `0 ≤ v` some iteration budget completes and yields at
least one byte; for every `v < 0` no iteration budget ever completes,
because the arithmetic right shift keeps the value negative forever. -/
theorem c9_write_varint_termination :
    (∀ v : Int, 0 ≤ v →
      ∃ fuel bytes, writeVarintFuel fuel v = some bytes ∧ 1 ≤ bytes.length) ∧
    (∀ v : Int, v < 0 → ∀ fuel, writeVarintFuel fuel v = none) := by
  constructor
  · intro v hv
    obtain ⟨n, rfl⟩ := Int.eq_ofNat_of_zero_le hv
    refine ⟨n + 1, writeVarint n, ?_, writeVarint_length_pos n⟩
    apply writeVarintFuel_eq_writeVarint
    calc n < 2 ^ n := Nat.lt_two_pow n
    _ ≤ 128 ^ n := Nat.pow_le_pow_left (by norm_num) n
    _ ≤ 128 ^ (n + 1) := Nat.pow_le_pow_right (by norm_num) (by omega)
  · intro v hv fuel
    exact writeVarintFuel_neg fuel v hv

/-- Witness for C9 at the inputs 300 and -7. -/
theorem c9_witness :
    (∃ fuel bytes, writeVarintFuel fuel 300 = some bytes ∧ 1 ≤ bytes.length) ∧
    (∀ fuel, writeVarintFuel fuel (-7) = none) :=
  ⟨c9_write_varint_termination.1 300 (by norm_num),
   c9_write_varint_termination.2 (-7) (by norm_num)⟩

/-- Claim C4: for every integer `n` in `[0, 2^31 - 1]`,
`PacketReader.read_varint` applied to `Connection._write_varint(n)` returns
`n` (consuming the whole encoding), and the encoding is at most 5 bytes
long. -/
theorem c4_varint_roundtrip (n : Nat) (h : n < 2 ^ 31) :
    readVarint (writeVarint n) 0 = .ok (n, (writeVarint n).length) ∧
    (writeVarint n).length ≤ 5 := by
  constructor
  · have h2 := readVarintAux_writeVarint n (writeVarint n) [] 0 0 0
      (by simp) (by norm_num)
      (by norm_num at h ⊢; omega)
    simpa [readVarint] using h2
  · have h2 : n < 2 ^ (7 * 5) := lt_of_lt_of_le h (by norm_num)
    exact writeVarint_length_le 4 n h2

/-- Witness for C4 at the boundary value `2 ^ 21`. -/
theorem c4_witness :
    readVarint (writeVarint 2097152) 0 = .ok (2097152, (writeVarint 2097152).length) ∧
    (writeVarint 2097152).length ≤ 5 :=
  c4_varint_roundtrip 2097152 (by norm_num)

/-- Claim C1 (code bug): the FixedPosition round-trip fails already at
`(x, y, z) = (1, 0, 0)`.  Encoding packs the value `2 ^ 38`; decoding then
computes `z = val << 38 >> 38`, which on unbounded Python integers is
`val` itself rather than the sign-extended low 26 bits, so the decoded
`z` is `2 ^ 38 - 2 ^ 26 = 274810798080` instead of `0`. -/
theorem c1_position_roundtrip_bug :
    writePosition 1 0 0 = .ok [0, 0, 0, 64, 0, 0, 0, 0] ∧
    readPosition [0, 0, 0, 64, 0, 0, 0, 0] 0 = .ok ((1, 0, 274810798080), 8) ∧
    (274810798080 : Int) ≠ 0 := by
  refine ⟨rfl, rfl, by norm_num⟩

/-- Claim C2, counterexample: at epoch 47 no table has epoch ≤ 47, so the
claim as stated demands the sentinel 0, but `_get_packet_id` still answers
from the 765 table. -/
theorem c2_counterexample :
    resolveClaimed "player_position" 47 = 0 ∧
    getPacketId "player_position" 47 = 0x36 ∧ (0x36 : Nat) ≠ 0 :=
  ⟨rfl, rfl, by norm_num⟩

/-- Claim C2 as amended: the concrete values hold, and resolution scans the
tables from the highest epoch ≤ the given epoch downward, falling back to
the lowest (765) table — rather than the sentinel 0 — when no table with
epoch ≤ the given epoch contains the name; 0 is returned only when the
name is absent from the tables. -/
theorem c2_resolution_amended :
    getPacketId "player_position" 765 = 0x36 ∧
    getPacketId "player_position" 767 = 0x3B ∧
    ∀ (name : String) (pv : Int), getPacketId name pv = resolveAmended name pv := by
  refine ⟨rfl, rfl, ?_⟩
  intro name pv
  unfold getPacketId resolveAmended resolveScan packetIdTables
  by_cases h767 : (767 : Int) ≤ pv
  · have h765 : (765 : Int) ≤ pv := by omega
    simp only [List.filter_cons, List.filter_nil, h767, h765, decide_True]
    cases h7 : packets767.lookup name <;> cases h5 : packets765.lookup name <;>
      simp [List.findSome?, h7, h5]
  · by_cases h765 : (765 : Int) ≤ pv
    · simp [List.filter_cons, List.filter_nil, h767, h765, List.findSome?]
      cases h5 : packets765.lookup name <;> simp [h5]
    · simp [List.filter_cons, List.filter_nil, h767, h765, List.findSome?]

/-- A value below 128 encodes as the single byte holding it. -/
lemma writeVarint_small (n : Nat) (h : n < 128) : writeVarint n = [n] := by
  have h0 : n >>> 7 = 0 := by
    simp only [Nat.shiftRight_eq_div_pow]
    omega
  rw [writeVarint_eq_single n h0, and_127_eq_mod, Nat.mod_eq_of_lt h]

/-- Claim C6, counterexample: resolving a name absent from every table
returns the sentinel 0, and `_send_packet` frames it and produces socket
bytes (the frame `[1, 0]`: length 1, packet ID 0) without raising — there
is no error mechanism anywhere on the write path. -/
theorem c6_counterexample :
    getPacketId "no_such_packet" 765 = 0 ∧
    sendPacket id (-1) (getPacketId "no_such_packet" 765) [] = [1, 0] := by
  refine ⟨rfl, ?_⟩
  have hid : getPacketId "no_such_packet" 765 = 0 := rfl
  rw [hid]
  unfold sendPacket
  rw [writeVarint_small 0 (by norm_num)]
  norm_num
  rw [writeVarint_small 1 (by norm_num)]
  rfl

/-- Claim C6 as amended: for every outbound send whose semantic packet name
has no entry in any table, `_get_packet_id` returns the sentinel 0 and
`_send_packet` silently frames and writes the packet with ID 0 (shown here
with compression disabled, the login-time default); no error is raised
before the bytes reach the socket. -/
theorem c6_unknown_write_amended (name : String) (pv : Int) (data : List Nat)
    (compress : List Nat → List Nat)
    (h5 : packets765.lookup name = none) (h7 : packets767.lookup name = none) :
    getPacketId name pv = 0 ∧
    sendPacket compress (-1) (getPacketId name pv) data =
      writeVarint (data.length + 1) ++ 0 :: data := by
  have hid : getPacketId name pv = 0 := by
    unfold getPacketId
    by_cases h : (767 : Int) ≤ pv <;> simp [h, h5, h7]
  refine ⟨hid, ?_⟩
  rw [hid]
  unfold sendPacket
  have h0 : writeVarint 0 = [0] := by
    rw [writeVarint_eq_single 0 rfl]
    rfl
  rw [h0]
  norm_num

/-- Witness for C6 at a concrete unknown name. -/
theorem c6_witness :
    getPacketId "set_compression" 765 = 0 ∧
    sendPacket id (-1) (getPacketId "set_compression" 765) [7] =
      writeVarint (([7] : List Nat).length + 1) ++ 0 :: [7] :=
  c6_unknown_write_amended "set_compression" 765 [7] id rfl rfl

/-- Claim C8 (code bug): a keep-alive identifier with the top bit set is
read by `read_long` (signed `>q`) as a negative value, and the reply then
evaluates `struct.pack(">Q", keep_alive_id)`, which raises `struct.error`
for negative input instead of echoing: no serverbound keep-alive is sent,
contradicting the claim for "any signed 64-bit value ... without raising".
Evaluated at the identifier bytes `FF FF FF FF FF FF FF FF` (value -1). -/
theorem c8_keep_alive_echo_bug :
    readLong (List.replicate 8 255) 0 = .ok (-1, 8) ∧
    handleKeepAlive 765 id (-1) (List.replicate 8 255) =
      .error "argument out of range" := by
  constructor <;> rfl

/-- Claim C3: while the connection state is Login every packet is routed to
the login handler and the Play dispatcher — over which the statement
quantifies — is never consulted; the handling never emits a move event;
and a Login Success packet (id 0x02) that parses successfully transitions
the state to Play, emitting exactly the login event once. -/
theorem c3_login_state_gating
    (playHandler : Nat → List Nat → Conn → Except String (Conn × List Event))
    (packetId : Nat) (data : List Nat) (st : Conn) (hst : st.state = CState.login) :
    handlePacket playHandler packetId data st = handleLoginPacket packetId data st ∧
    (∀ st' evs, handlePacket playHandler packetId data st = .ok (st', evs) →
      Event.moveEv ∉ evs) ∧
    (packetId = 2 → ∀ st' evs,
      handlePacket playHandler packetId data st = .ok (st', evs) →
      st'.state = CState.play ∧ evs = [Event.loginEv]) := by
  have hroute : handlePacket playHandler packetId data st =
      handleLoginPacket packetId data st := by
    unfold handlePacket
    rw [hst]
    simp
  refine ⟨hroute, ?_, ?_⟩
  · intro st' evs hok
    rw [hroute] at hok
    unfold handleLoginPacket at hok
    split_ifs at hok <;> try split at hok
    all_goals try exact Except.noConfusion hok
    all_goals
      simp only [Except.ok.injEq, Prod.mk.injEq] at hok
      obtain ⟨h1, h2⟩ := hok
      subst h2
      decide
  · intro hpid st' evs hok
    subst hpid
    rw [hroute] at hok
    unfold handleLoginPacket at hok
    norm_num at hok
    split at hok
    · exact Except.noConfusion hok
    · simp only [Except.ok.injEq, Prod.mk.injEq] at hok
      obtain ⟨h1, h2⟩ := hok
      subst h1
      subst h2
      exact ⟨rfl, rfl⟩

/-- Witness for C3: a Login Success packet with a 16-byte UUID and the
username "abc" handled in Login state. -/
theorem c3_witness :
    ({ state := CState.play, compressionThreshold := -1 } : Conn).state = CState.play ∧
    ([Event.loginEv] : List Event) = [Event.loginEv] := by
  have h := c3_login_state_gating (fun _ _ st => .ok (st, []))
    2 (List.replicate 16 0 ++ [3, 97, 98, 99])
    { state := CState.login, compressionThreshold := -1 } rfl
  have hv : readVarint (List.replicate 16 0 ++ [3, 97, 98, 99]) 16 = .ok (3, 17) := by
    unfold readVarint
    rw [readVarintAux_last
      (show (List.replicate 16 0 ++ [3, 97, 98, 99])[16]? = some 3 from rfl) (by rfl)]
    rfl
  have hs : readString (List.replicate 16 0 ++ [3, 97, 98, 99]) 16 32767 =
      .ok ([97, 98, 99], 20) := by
    unfold readString
    rw [hv]
    rfl
  have heval : handlePacket (fun _ _ st => .ok (st, [])) 2
      (List.replicate 16 0 ++ [3, 97, 98, 99])
      { state := CState.login, compressionThreshold := -1 } =
      .ok ({ state := CState.play, compressionThreshold := -1 }, [Event.loginEv]) := by
    rw [h.1]
    unfold handleLoginPacket
    norm_num
    rw [hs]
  exact h.2.2 rfl _ _ heval

/-- Claim C7, counterexample: an Encryption Request (id 0x01) handled in
Login state leaves the connection exactly as it was — the state stays
Login rather than transitioning to Closed, and no event is emitted; the
code only logs a warning. -/
theorem c7_counterexample :
    handleLoginPacket 1 [] { state := CState.login, compressionThreshold := -1 } =
      .ok ({ state := CState.login, compressionThreshold := -1 }, []) ∧
    CState.login ≠ CState.closed :=
  ⟨rfl, by decide⟩

/-- Claim C7 as amended: for every Encryption Request packet received in
Login state the client logs a warning and otherwise ignores the packet:
state unchanged, nothing sent, no event emitted, and the login simply
proceeds. -/
theorem c7_encryption_request_amended
    (playHandler : Nat → List Nat → Conn → Except String (Conn × List Event))
    (data : List Nat) (st : Conn) (hst : st.state = CState.login) :
    handlePacket playHandler 1 data st = .ok (st, []) := by
  unfold handlePacket
  rw [hst]
  simp
  unfold handleLoginPacket
  norm_num

/-- Witness for C7 with an arbitrary two-byte payload. -/
theorem c7_witness :
    handlePacket (fun _ _ st => .ok (st, [])) 1 [9, 9]
      { state := CState.login, compressionThreshold := -1 } =
      .ok ({ state := CState.login, compressionThreshold := -1 }, []) :=
  c7_encryption_request_amended _ [9, 9] _ rfl

/-- Claim C10: `read_varint` only ever returns a nonnegative value (it ors
nonnegative 7-bit groups), the compression threshold starts at the
disabled default -1, and a Set Compression packet (id 0x03) handled in
Login state can only store a nonnegative threshold — the value returned
by `read_varint`. -/
theorem c10_compression_threshold_nonneg :
    (∀ (data : List Nat) (off : Nat) (r : Nat × Nat),
      readVarint data off = .ok r → 0 ≤ (r.1 : Int)) ∧
    connInit.compressionThreshold = -1 ∧
    (∀ (data : List Nat) (st st' : Conn) (evs : List Event),
      handleLoginPacket 3 data st = .ok (st', evs) →
      0 ≤ st'.compressionThreshold) := by
  refine ⟨?_, rfl, ?_⟩
  · intro data off r _
    exact Int.natCast_nonneg r.1
  · intro data st st' evs hok
    unfold handleLoginPacket at hok
    norm_num at hok
    split at hok
    · exact Except.noConfusion hok
    · simp only [Except.ok.injEq, Prod.mk.injEq] at hok
      obtain ⟨h1, h2⟩ := hok
      subst h1
      exact Int.natCast_nonneg _

/-- Witness for C10 at the Set Compression payload `[5]`. -/
theorem c10_witness :
    (0 ≤ ((5 : Nat) : Int)) ∧
    0 ≤ ({ state := CState.login, compressionThreshold := 5 } : Conn).compressionThreshold := by
  have hv : readVarint [5] 0 = .ok (5, 1) := by
    unfold readVarint
    rw [readVarintAux_last (show ([5] : List Nat)[0]? = some 5 from rfl) (by rfl)]
    rfl
  constructor
  · exact c10_compression_threshold_nonneg.1 [5] 0 (5, 1) hv
  · have heval : handleLoginPacket 3 [5]
        { state := CState.login, compressionThreshold := -1 } =
        .ok ({ state := CState.login, compressionThreshold := 5 }, []) := by
      unfold handleLoginPacket
      norm_num
      rw [hv]
      rfl
    exact c10_compression_threshold_nonneg.2.2 [5] _ _ [] heval

/-- Claim C5: the health-update handler stores health, food and saturation
into the bot state; when the new health is ≤ 0 and the previous health
was > 0 it emits exactly one death event (and no health event); otherwise
it emits a health event exactly when the new health differs from the
previous value. -/
theorem c5_health_update (health saturation : Rat) (food : Nat) (bot : BotHealth) :
    (handleHealthUpdate health food saturation bot).1 =
      { health := health, food := food, foodSaturation := saturation } ∧
    (health ≤ 0 ∧ 0 < bot.health →
      (handleHealthUpdate health food saturation bot).2 = [Event.deathEv]) ∧
    (¬ (health ≤ 0 ∧ 0 < bot.health) →
      (handleHealthUpdate health food saturation bot).2 =
        if health ≠ bot.health then [Event.healthEv] else []) := by
  unfold handleHealthUpdate
  refine ⟨rfl, ?_, ?_⟩
  · intro h
    simp [h]
  · intro h
    simp [h]

/-- Witness for C5: health drops from 20 to 0, emitting exactly the death
event. -/
theorem c5_witness :
    (handleHealthUpdate 0 10 0 { health := 20, food := 20, foodSaturation := 5 }).1 =
      { health := 0, food := 10, foodSaturation := 0 } ∧
    (handleHealthUpdate 0 10 0 { health := 20, food := 20, foodSaturation := 5 }).2 =
      [Event.deathEv] := by
  have h := c5_health_update 0 0 10 { health := 20, food := 20, foodSaturation := 5 }
  exact ⟨h.1, h.2.1 ⟨le_refl 0, by norm_num⟩⟩
